import Mathlib

/-!
Verification of the Heston/Black-Scholes implied-volatility engine
(`calculate_sv_v5.c`, the authoritative Heston path, and `calculate_iv_v2.c`,
the authoritative BS-IV path) against its natural-language specification.

Modelling conventions.

* C `double` values are modelled as exact rationals (`ℚ`).  The arithmetic the
  program performs (`+`, `-`, `*`, `/`, comparisons, `fabs`, `fmax`) is exact
  rational arithmetic; rounding of individual IEEE operations is not modelled.
* Calls into the math library (`exp`, `log`, `sqrt`, `erf`) are modelled by an
  explicit oracle (`MathOracle`), a record of rational functions standing for
  whatever values the library returns.  A property of the program (as opposed
  to a property of libm) must hold for every oracle; a concrete oracle gives a
  concrete executable run of the program's own control flow and arithmetic.
* `isfinite` guards on quantities that are produced by exact rational
  arithmetic are vacuously true in this model and are dropped; the one place
  where non-finite data genuinely enters from outside (the FFTW transform
  output consumed by the cache builder) is modelled as `Option ℚ` with `none`
  standing for a non-finite double, so that the corresponding guard is kept.
* The Carr-Madan FFT pricer inside the calibration loop is abstracted as a
  function `HestonParams → ℚ` (the price the pricer returns for a parameter
  tuple); the calibration loop, the cache-key logic, the FFT-parameter
  adaptation and the strike-grid extraction are embedded directly.
* C `int` loop indices and array indices are modelled as `ℕ` (all are
  non-negative in every reachable state of the embedded code).
-/

/-- Math-library oracle: the values returned by the C math library calls
`exp`, `log`, `sqrt`, `erf` on doubles, as rational-valued functions. -/
structure MathOracle where
  exp : ℚ → ℚ
  log : ℚ → ℚ
  sqrt : ℚ → ℚ
  erf : ℚ → ℚ

/-- `DBL_MAX`, the largest finite double (`2^1024 - 2^971`), as an exact
rational written as an explicit numeral so that kernel evaluation is cheap. -/
def dblMax : ℚ := 179769313486231570814527423731704356798070567525844996598917476803157260780028538760589558632766878171540458953514382464234321326889464182768467546703537516986049910576551282076245490090389328944075868508455133942304583236903222948165808559332123348274797826204144723168738177180919299881250404026184124858368

/-- `DBL_EPSILON`, the machine epsilon of `double` (`2^-52`), as an exact
rational. -/
def dblEps : ℚ := 1 / 4503599627370496

/-- The double constant `M_PI` (the IEEE-754 double nearest to pi,
`884279719003555 / 2^48`), as an exact rational. -/
def mPi : ℚ := 884279719003555 / 281474976710656

/-! ## Black-Scholes pricer of `calculate_sv_v5.c` (`black_scholes_call`) -/

/-- `black_scholes_call` from `calculate_sv_v5.c` (lines 180-192): closed-form
European call with continuous dividend; returns `-1` on non-positive input. -/
def black_scholes_call (O : MathOracle) (S K T r q sigma : ℚ) : ℚ :=
  if sigma ≤ 0 ∨ T ≤ 0 ∨ S ≤ 0 ∨ K ≤ 0 then -1
  else
    let d1 := (O.log (S / K) + (r - q + sigma * sigma / 2) * T) / (sigma * O.sqrt T)
    let d2 := d1 - sigma * O.sqrt T
    let nd1 := (1 + O.erf (d1 / O.sqrt 2)) / 2
    let nd2 := (1 + O.erf (d2 / O.sqrt 2)) / 2
    S * O.exp (-q * T) * nd1 - K * O.exp (-r * T) * nd2

/-! ## BS bisection implied-volatility solver (`bs_implied_vol`, v5 lines 195-252) -/

/-- The bisection loop of `bs_implied_vol`.  `fuel` is the number of loop
iterations remaining after the current one (the C loop runs 100 bodies, so the
initial call uses `fuel = 99`).  Each body computes the midpoint, returns it if
the mid price is within `1e-6` of the market price, and otherwise narrows the
bracket; after the final body the C code returns the last midpoint, which the
`fuel = 0` case reproduces. -/
def bisectLoop (O : MathOracle) (m S K T r q : ℚ) : ℕ → ℚ → ℚ → ℚ
  | 0, lo, hi => (lo + hi) / 2
  | fuel + 1, lo, hi =>
    let mid := (lo + hi) / 2
    let p := black_scholes_call O S K T r q mid
    if |p - m| < 1 / 1000000 then mid
    else if p < m then bisectLoop O m S K T r q fuel mid hi
    else bisectLoop O m S K T r q fuel lo mid

/-- `bs_implied_vol` from `calculate_sv_v5.c` (lines 195-252): input
validation, no-arbitrage check, bracket check at `sigma ∈ [0.001, 2]`, then
bisection (at most 100 iterations, price tolerance `1e-6`). -/
def bs_implied_vol (O : MathOracle) (market_price S K T r q : ℚ) : ℚ :=
  if market_price ≤ 0 ∨ S ≤ 0 ∨ K ≤ 0 ∨ T ≤ 0 then -1
  else
    let intrinsic := max 0 (S * O.exp (-q * T) - K * O.exp (-r * T))
    if market_price < intrinsic then -1
    else
      let price_low := black_scholes_call O S K T r q (1 / 1000)
      let price_high := black_scholes_call O S K T r q 2
      if market_price ≤ price_low ∨ price_high ≤ market_price then -1
      else bisectLoop O market_price S K T r q 99 (1 / 1000) 2

/-! ## Heston calibration loop of `calculate_sv_v5.c` (`implied_vol_sv`) -/

/-- A Heston parameter tuple `(v0, kappa, theta, sigma, rho)` as passed to
`heston_call_fft` by the calibration loop. -/
structure HestonParams where
  v0 : ℚ
  kappa : ℚ
  theta : ℚ
  sigma : ℚ
  rho : ℚ
deriving DecidableEq

/-- Default tuple used only as the out-of-range placeholder of `List.getD`. -/
def hpDefault : HestonParams := ⟨0, 0, 0, 0, 0⟩

/-- The mutable state of the calibration loop in `implied_vol_sv`
(v5 lines 840-934): the best parameter tuple and residual seen so far, the
early-termination flag `g_found_good_match`, and the number of pricing
evaluations performed (one per executed loop body). -/
structure CalibState where
  bestV : ℚ
  bestKappa : ℚ
  bestTheta : ℚ
  bestSigma : ℚ
  bestRho : ℚ
  bestDiff : ℚ
  found : Bool
  count : ℕ
deriving DecidableEq

/-- Initial calibration state (v5 lines 840-848): best tuple seeded from the
initial guesses, `best_sigma = 0.4`, `best_rho = -0.7`, `best_diff = DBL_MAX`,
early-termination flag reset. -/
def calibInit (init_v0 init_kappa init_theta : ℚ) : CalibState :=
  ⟨init_v0, init_kappa, init_theta, 2 / 5, -(7 / 10), dblMax, false, 0⟩

/-- One body of the quadruple calibration loop (v5 lines 890-934).  All four
loops test `!g_found_good_match` before each iteration, so once the flag is
set no further body runs; a body prices the tuple, updates the best tuple on
improvement, and sets the flag when the residual is below `0.005 * m`. -/
def calibStep (hprice : HestonParams → ℚ) (m : ℚ) (st : CalibState) (p : HestonParams) :
    CalibState :=
  if st.found then st
  else
    let diff := |hprice p - m|
    if diff < st.bestDiff then
      { bestV := p.v0, bestKappa := p.kappa, bestTheta := p.theta,
        bestSigma := p.sigma, bestRho := p.rho, bestDiff := diff,
        found := if diff < 5 / 1000 * m then true else false,
        count := st.count + 1 }
    else { st with count := st.count + 1 }

/-- The parameter tuples enumerated by the calibration loop, in loop order
(v5 lines 861-901): `v0` outermost over
`init_v0 * [1, 0.85, 1.15, 0.7, 1.3]`, then `kappa` over
`init_kappa * [1, 1.5, 0.5]`, then `sigma` over `[0.2, 0.4, 0.6]`, then `rho`
innermost over `[-0.7, -0.4, 0.0]`, with `theta = v0` for every tuple. -/
def gridTuples (init_v0 init_kappa : ℚ) : List HestonParams :=
  [init_v0, init_v0 * (17 / 20), init_v0 * (23 / 20),
      init_v0 * (7 / 10), init_v0 * (13 / 10)].bind fun v =>
    [init_kappa, init_kappa * (3 / 2), init_kappa * (1 / 2)].bind fun k =>
      [(1 : ℚ) / 5, 2 / 5, 3 / 5].bind fun s =>
        [-(7 : ℚ) / 10, -(2 / 5), 0].map fun rho => ⟨v, k, v, s, rho⟩

/-- The whole calibration loop: fold the loop body over the grid in loop
order starting from the initial state. -/
def calibrate (hprice : HestonParams → ℚ) (m init_v0 init_kappa init_theta : ℚ) :
    CalibState :=
  (gridTuples init_v0 init_kappa).foldl (calibStep hprice m) (calibInit init_v0 init_kappa init_theta)

/-- Initial-guess seeding of `implied_vol_sv` (v5 lines 805-837): moneyness is
`forward / K` with `forward = S * exp((r - q) * T)`; the seeds
`(init_v0, init_kappa, init_theta)` depend on the moneyness tier, and
`init_kappa` is overridden for short- or long-dated options. -/
def svSeeds (O : MathOracle) (bs_iv S K T r q : ℚ) : ℚ × ℚ × ℚ :=
  let forward := S * O.exp ((r - q) * T)
  let moneyness := forward / K
  let base : ℚ × ℚ × ℚ :=
    if moneyness > 11 / 10 then (bs_iv * bs_iv * (11 / 10), 2, bs_iv * bs_iv * (21 / 20))
    else if moneyness < 9 / 10 then (bs_iv * bs_iv * (21 / 20), 3 / 2, bs_iv * bs_iv)
    else (bs_iv * bs_iv, 1, bs_iv * bs_iv)
  if T < 1 / 10 then (base.1, 3, base.2.2)
  else if T > 1 then (base.1, 1 / 2, base.2.2)
  else base

/-- `implied_vol_sv` from `calculate_sv_v5.c` (lines 789-988), with the FFT
pricer `heston_call_fft` abstracted as `hprice`: BS anchor, seeding, grid
calibration, then the post-processing of lines 949-987 (return the anchor on
poor calibration or when `sqrt(best_v)` leaves `[0.05, 1.5]`). -/
def implied_vol_sv (O : MathOracle) (hprice : HestonParams → ℚ) (m S K T r q : ℚ) : ℚ :=
  let bs_iv := bs_implied_vol O m S K T r q
  if bs_iv < 0 then -1
  else
    let seeds := svSeeds O bs_iv S K T r q
    let st := calibrate hprice m seeds.1 seeds.2.1 seeds.2.2
    let sv_vol := O.sqrt st.bestV
    if st.bestDiff > 1 / 10 * m then bs_iv
    else if sv_vol < 1 / 20 then bs_iv
    else if sv_vol > 3 / 2 then bs_iv
    else sv_vol

/-! ## FFT strike-grid cache key (`init_fft_cache`, v5 lines 342-572) -/

/-- The key-and-validity part of the global `FFTCache` struct (v5 lines
51-70): spot, rates, expiry, the five Heston parameters, the four FFT
parameters the cache was built with, and the validity flag. -/
structure FFTCacheKey where
  S : ℚ
  r : ℚ
  q : ℚ
  T : ℚ
  v0 : ℚ
  kappa : ℚ
  theta : ℚ
  sigma : ℚ
  rho : ℚ
  fftN : ℤ
  range : ℚ
  alpha : ℚ
  eta : ℚ
  isValid : Bool
deriving DecidableEq

/-- The zero-initialised global cache (v5 lines 89-107). -/
def emptyCacheKey : FFTCacheKey := ⟨0, 0, 0, 0, 0, 0, 0, 0, 0, 0, 0, 0, 0, false⟩

/-- The pricing arguments passed to `init_fft_cache`. -/
structure PricingInputs where
  S : ℚ
  r : ℚ
  q : ℚ
  T : ℚ
  v0 : ℚ
  kappa : ℚ
  theta : ℚ
  sigma : ℚ
  rho : ℚ
deriving DecidableEq

/-- The current global FFT configuration `(g_fft_n, g_log_strike_range,
g_alpha, g_eta)`. -/
structure FFTConfig where
  fftN : ℤ
  range : ℚ
  alpha : ℚ
  eta : ℚ
deriving DecidableEq

/-- The default FFT configuration (v5 lines 44-47). -/
def defaultConfig : FFTConfig := ⟨4096, 3, 3 / 2, 1 / 20⟩

/-- The cache-hit test of `init_fft_cache` (v5 lines 362-370): the cached
entry is reused exactly when it is valid, `S`, `r`, `q`, `T` each differ from
the cached values by less than the tolerance, the FFT size matches exactly,
and the remaining three FFT parameters each differ by less than the
tolerance.  The five Heston parameters are not compared (the source comment
calls this a deliberately relaxed check for calibration). -/
def cacheHit (tol : ℚ) (c : FFTCacheKey) (cfg : FFTConfig) (p : PricingInputs) : Prop :=
  c.isValid = true ∧ |c.S - p.S| < tol ∧ |c.r - p.r| < tol ∧
    |c.q - p.q| < tol ∧ |c.T - p.T| < tol ∧
    c.fftN = cfg.fftN ∧ |c.range - cfg.range| < tol ∧
    |c.alpha - cfg.alpha| < tol ∧ |c.eta - cfg.eta| < tol

/-- The cache-metadata update after a successful rebuild (v5 lines 552-567):
all key fields are overwritten with the build parameters and the entry is
marked valid. -/
def cacheUpdateKey (cfg : FFTConfig) (p : PricingInputs) : FFTCacheKey :=
  ⟨p.S, p.r, p.q, p.T, p.v0, p.kappa, p.theta, p.sigma, p.rho,
    cfg.fftN, cfg.range, cfg.alpha, cfg.eta, true⟩

/-! ## Adaptive FFT parameter selection (v5 lines 651-735) -/

/-- `is_challenging_parameter_set` (v5 lines 651-680): extreme moneyness,
short expiry with high variance, or extreme vol-of-vol / correlation. -/
def isChallenging (S K T v0 kappa theta sigma rho : ℚ) : Bool :=
  let moneyness := K / S
  if moneyness > 2 ∨ moneyness < 1 / 2 then true
  else if T < 3 / 20 ∧ v0 > 1 / 25 then true
  else if sigma > 1 ∨ |rho| > 9 / 10 then true
  else false

/-- `adapt_fft_parameters` (v5 lines 683-721): promote the grid for extreme
moneyness, refine the grid and dampening for short expiry, coarsen the grid
for long expiry. -/
def adaptFFT (cfg : FFTConfig) (S K T : ℚ) : FFTConfig :=
  let moneyness := K / S
  let c1 := if moneyness > 3 / 2 ∨ moneyness < 7 / 10 then
    { cfg with fftN := 8192, range := 4 } else cfg
  let c2 := if T < 1 / 10 then { c1 with eta := 1 / 40, alpha := 5 / 4 } else c1
  if T > 2 then { c2 with eta := 1 / 10 } else c2

/-- The configuration-adjustment step at the top of `heston_call_fft`
(v5 lines 724-732): the adaptation runs only when
`is_challenging_parameter_set` returns true. -/
def hestonFFTConfig (cfg : FFTConfig) (S K T v0 kappa theta sigma rho : ℚ) : FFTConfig :=
  if isChallenging S K T v0 kappa theta sigma rho then adaptFFT cfg S K T else cfg

/-! ## Black-Scholes pricer of `calculate_iv_v2.c` (`bs_call`) -/

/-- The standard normal CDF of `calculate_iv_v2.c` (lines 9-11):
`0.5 * (1 + erf(x / sqrt 2))`. -/
def cdf (O : MathOracle) (x : ℚ) : ℚ := (1 + O.erf (x / O.sqrt 2)) / 2

/-- `bs_call` from `calculate_iv_v2.c` (lines 19-75).  The guards appear in
source order: input validation, the near-zero-volatility branch
(`sigma < 0.0001`), the two `DBL_EPSILON` guards on `sqrt(T)` and
`sigma * sqrt(T)` (both of which return `fmax(0, S - K*exp(-r*T))`, with the
spot not dividend-discounted), then the closed form.  The `isfinite` guards
on `d1`, `d2` and the CDF values are vacuous in the exact-rational model and
are omitted. -/
def bs_call (O : MathOracle) (S K T r q sigma : ℚ) : ℚ :=
  if sigma ≤ 0 ∨ T ≤ 0 ∨ S ≤ 0 ∨ K ≤ 0 then -1
  else if sigma < 1 / 10000 then
    (if S * O.exp (-q * T) > K * O.exp (-r * T) then
      S * O.exp (-q * T) - K * O.exp (-r * T) else 0)
  else
    let sqrt_T := O.sqrt T
    if sqrt_T < dblEps then max 0 (S - K * O.exp (-r * T))
    else
      let sigmaSqrtT := sigma * sqrt_T
      if sigmaSqrtT < dblEps then max 0 (S - K * O.exp (-r * T))
      else
        let forward := S * O.exp ((r - q) * T)
        let d1 := (O.log (forward / K) + sigma * sigma / 2 * T) / sigmaSqrtT
        let d2 := d1 - sigmaSqrtT
        let call_price := S * O.exp (-q * T) * cdf O d1 - K * O.exp (-r * T) * cdf O d2
        if call_price > 0 then call_price else 0

/-! ## Strike-grid construction, interpolation and lookup (v5 lines 504-648) -/

/-- The log-strike grid strikes written by `init_fft_cache` (v5 lines
505-515): `strikes[i] = exp(log S - R + (2R/N) * i)`. -/
def cacheStrikes (O : MathOracle) (S R : ℚ) (n : ℕ) (i : ℕ) : ℚ :=
  O.exp (O.log S - R + 2 * R / (n : ℚ) * (i : ℚ))

/-- The price written by `init_fft_cache` at grid index `i` (v5 lines
517-532).  `dft i` is the real part of the `i`-th FFTW output element, with
`none` standing for a non-finite double: the guard maps it to `0` before the
exponential factor, and the result is floored at `0`. -/
def cachePriceAt (O : MathOracle) (dft : ℕ → Option ℚ) (S R alpha : ℚ) (n : ℕ) (i : ℕ) : ℚ :=
  let log_K := O.log S - R + 2 * R / (n : ℚ) * (i : ℚ)
  max 0 ((dft i).getD 0 * (O.exp (-alpha * log_K) * (1 / mPi)))

/-- The payload part of the `FFTCache` struct consumed by
`get_cached_option_price`: array length, strike array, price array (an entry
`none` stands for a non-finite stored double), validity flag, and whether the
arrays are allocated (non-NULL). -/
structure CacheData where
  n : ℕ
  strikes : ℕ → ℚ
  prices : ℕ → Option ℚ
  isValid : Bool
  allocated : Bool

/-- The cache payload produced by a successful `init_fft_cache` build: the
log-strike grid and the guarded, floored prices, valid and allocated. -/
def builtCache (O : MathOracle) (dft : ℕ → Option ℚ) (S R alpha : ℚ) (n : ℕ) : CacheData :=
  { n := n, strikes := cacheStrikes O S R n,
    prices := fun i => some (cachePriceAt O dft S R alpha n i),
    isValid := true, allocated := true }

/-- The binary search of `get_cached_option_price` (v5 lines 592-619):
narrow `(idx_low, idx_high)` while `idx_high - idx_low > 1`, moving the side
whose strike brackets `K`.  `fuel` bounds the number of iterations; the C
loop needs at most `idx_high - idx_low` of them, and every caller passes a
fuel at least that large. -/
def bsearchIdx (s : ℕ → ℚ) (K : ℚ) : ℕ → ℕ → ℕ → ℕ × ℕ
  | 0, lo, hi => (lo, hi)
  | fuel + 1, lo, hi =>
    if hi - lo ≤ 1 then (lo, hi)
    else
      let mid := (lo + hi) / 2
      if s mid < K then bsearchIdx s K fuel mid hi else bsearchIdx s K fuel lo mid

/-- `get_cached_option_price` (v5 lines 575-648), returning `none` for a
non-finite returned double and `some x` for the finite value `x`: sentinel
`-1` for an invalid or unallocated cache, clamping to the first or last grid
price out of range, and otherwise binary search plus linear interpolation in
`K`, with sentinel `-1` when either bracketing price is non-finite. -/
def getCachedPrice (c : CacheData) (K : ℚ) : Option ℚ :=
  if c.isValid = false ∨ c.allocated = false then some (-1)
  else if K ≤ c.strikes 0 then c.prices 0
  else if c.strikes (c.n - 1) ≤ K then c.prices (c.n - 1)
  else
    let idx := bsearchIdx c.strikes K c.n 0 (c.n - 1)
    match c.prices idx.1, c.prices idx.2 with
    | some price_low, some price_high =>
      let weight := (K - c.strikes idx.1) / (c.strikes idx.2 - c.strikes idx.1)
      some (price_low + weight * (price_high - price_low))
    | _, _ => some (-1)

/-! ## Definitions modelled from the specification text (for comparison) -/

/-- Modelled from the spec: the grid claimed in section 4.7 Step 3 of the
specification, in the claimed enumeration order:
`v0 * [0.7, 0.85, 1.0, 1.15, 1.3]` by `kappa * [0.5, 1.0, 1.5]` by
`sigma * [0.8, 1.0, 1.2]` by `rho` in `[base-0.2 .. base+0.2]` clamped to
`[-0.9, 0]`, with `theta = v0`. -/
def specGridStep3 (v0seed kappaseed sigmaseed rhobase : ℚ) : List HestonParams :=
  [(7 : ℚ) / 10, 17 / 20, 1, 23 / 20, 13 / 10].bind fun fv =>
    [(1 : ℚ) / 2, 1, 3 / 2].bind fun fk =>
      [(4 : ℚ) / 5, 1, 6 / 5].bind fun fs =>
        ([rhobase - 1 / 5, rhobase - 1 / 10, rhobase, rhobase + 1 / 10,
            rhobase + 1 / 5].map fun x => max (-(9 : ℚ) / 10) (min 0 x)).map fun rho =>
          ⟨v0seed * fv, kappaseed * fk, v0seed * fv, sigmaseed * fs, rho⟩

/-- Modelled from the spec: the Step 4 skew adjustment (strike part plus term
part) of section 4.7 of the specification. -/
def specSkewAdjust (moneyness T : ℚ) : ℚ :=
  (if moneyness > 6 / 5 then (moneyness - 6 / 5) * (1 / 20)
   else if moneyness < 4 / 5 then (4 / 5 - moneyness) * (3 / 100) else 0) +
  (if T < 1 / 10 then 1 / 50 * (1 / 10 - T) / (1 / 10)
   else if T > 1 then -(1 / 100) * (T - 1) else 0)

/-- Modelled from the spec: the Step 5 blend claimed for a poor calibration,
`w * sigma_sv + (1 - w) * sigma_bs` with `w = 1 - min(1, residual / m)`,
plus half the skew adjustment. -/
def specBlend (m residual sigma_sv sigma_bs adj : ℚ) : ℚ :=
  (1 - min 1 (residual / m)) * sigma_sv + min 1 (residual / m) * sigma_bs + adj / 2

/-- Modelled from the spec: the Step 4 post-processing value,
`sqrt(v0_best)` plus the skew adjustment, clamped to `[0.05, 1.5]`. -/
def specStep4Vol (sv_raw adj : ℚ) : ℚ := min (3 / 2) (max (1 / 20) (sv_raw + adj))

/-! ## Concrete oracles and inputs used for witnesses and counterexamples -/

/-- A concrete math oracle: `exp = 1`, `log = 0`, `sqrt = 1`, `erf = id`.
Under it `black_scholes_call S=K=1, T=1, r=q=0` evaluates to `sigma / 2`, a
strictly increasing price curve, so the bisection solver runs exactly as in
the source on a monotone price function. -/
def oracleA : MathOracle := ⟨fun _ => 1, fun _ => 0, fun _ => 1, fun x => x⟩

/-- A concrete math oracle for the `bs_call` intrinsic-branch run:
`exp 0 = 1` and `exp x = 1/2` otherwise, `sqrt = 2 ^ (-40)` (so that
`sigma * sqrt(T)` falls below `DBL_EPSILON` while `sqrt(T)` does not),
`log = 0`, `erf = id`. -/
def oracleB : MathOracle :=
  ⟨fun x => if x = 0 then 1 else 1 / 2, fun _ => 0, fun _ => 1 / 1099511627776, fun x => x⟩

/-- The identity oracle (`exp`, `log`, `sqrt`, `erf` all the identity); its
`exp` is strictly monotone, as the real `exp` is. -/
def oracleId : MathOracle := ⟨fun x => x, fun x => x, fun x => x, fun x => x⟩

/-- A constant abstract Heston pricer returning `1000` for every tuple. -/
def priceConstBig : HestonParams → ℚ := fun _ => 1000

/-- A constant abstract Heston pricer returning `1.35` for every tuple. -/
def priceConstMid : HestonParams → ℚ := fun _ => 27 / 20

/-- A DFT-output stub for the cache builder: every element non-finite. -/
def dftNone : ℕ → Option ℚ := fun _ => none

/-! ## Helper lemmas: bisection range -/

lemma bisectLoop_mem (O : MathOracle) (m S K T r q : ℚ) :
    ∀ (fuel : ℕ) (lo hi : ℚ), 1 / 1000 ≤ lo → hi ≤ 2 → lo < hi →
      1 / 1000 < bisectLoop O m S K T r q fuel lo hi ∧
        bisectLoop O m S K T r q fuel lo hi < 2 := by
  intro fuel
  induction fuel with
  | zero =>
    intro lo hi h1 h2 h3
    simp only [bisectLoop]
    constructor <;> linarith
  | succ n ih =>
    intro lo hi h1 h2 h3
    have hmidlo : lo < (lo + hi) / 2 := by linarith
    have hmidhi : (lo + hi) / 2 < hi := by linarith
    simp only [bisectLoop]
    split_ifs with hcl hlt
    · exact ⟨by linarith, by linarith⟩
    · exact ih ((lo + hi) / 2) hi (by linarith) h2 hmidhi
    · exact ih lo ((lo + hi) / 2) h1 (by linarith) hmidlo

/-- Every non-sentinel return of `bs_implied_vol` is a bisection midpoint,
which lies strictly inside `(0.001, 2)`. -/
lemma bs_implied_vol_range (O : MathOracle) (m S K T r q : ℚ) :
    bs_implied_vol O m S K T r q = -1 ∨
      (1 / 1000 < bs_implied_vol O m S K T r q ∧ bs_implied_vol O m S K T r q < 2) := by
  simp only [bs_implied_vol]
  split_ifs with h1 h2 h3
  · exact Or.inl rfl
  · exact Or.inl rfl
  · exact Or.inl rfl
  · exact Or.inr (bisectLoop_mem O m S K T r q 99 (1 / 1000) 2 le_rfl le_rfl (by norm_num))

/-! ## Helper lemmas: the calibration fold -/

lemma calibStep_of_found (hprice : HestonParams → ℚ) (m : ℚ) (st : CalibState)
    (p : HestonParams) (h : st.found = true) : calibStep hprice m st p = st := by
  simp [calibStep, h]

lemma calibStep_not_found (hprice : HestonParams → ℚ) (m : ℚ) (st : CalibState)
    (p : HestonParams) (hf : st.found = false) :
    calibStep hprice m st p =
      if |hprice p - m| < st.bestDiff then
        { bestV := p.v0, bestKappa := p.kappa, bestTheta := p.theta,
          bestSigma := p.sigma, bestRho := p.rho, bestDiff := |hprice p - m|,
          found := if |hprice p - m| < 5 / 1000 * m then true else false,
          count := st.count + 1 }
      else { st with count := st.count + 1 } := by
  simp [calibStep, hf]

lemma foldl_calibStep_of_found (hprice : HestonParams → ℚ) (m : ℚ) :
    ∀ (l : List HestonParams) (st : CalibState), st.found = true →
      l.foldl (calibStep hprice m) st = st := by
  intro l
  induction l with
  | nil => intro st _; rfl
  | cons p t ih =>
    intro st h
    simp only [List.foldl_cons, calibStep_of_found hprice m st p h]
    exact ih st h

lemma calibStep_count_le (hprice : HestonParams → ℚ) (m : ℚ) (st : CalibState)
    (p : HestonParams) : (calibStep hprice m st p).count ≤ st.count + 1 := by
  simp only [calibStep]
  split_ifs <;> simp

lemma foldl_calibStep_count (hprice : HestonParams → ℚ) (m : ℚ) :
    ∀ (l : List HestonParams) (st : CalibState),
      (l.foldl (calibStep hprice m) st).count ≤ st.count + l.length := by
  intro l
  induction l with
  | nil => intro st; simp
  | cons p t ih =>
    intro st
    simp only [List.foldl_cons, List.length_cons]
    calc (t.foldl (calibStep hprice m) (calibStep hprice m st p)).count
        ≤ (calibStep hprice m st p).count + t.length := ih _
      _ ≤ st.count + 1 + t.length := by
          have := calibStep_count_le hprice m st p; omega
      _ = st.count + (t.length + 1) := by omega

/-- The threshold invariant of the calibration loop: while the
early-termination flag is unset, the best residual is at least `0.005 * m`
(initially it is `DBL_MAX`, and any update below the threshold sets the
flag). -/
def calibInv (m : ℚ) (st : CalibState) : Prop :=
  st.found = false → 5 / 1000 * m ≤ st.bestDiff

lemma calibStep_inv (hprice : HestonParams → ℚ) (m : ℚ) (st : CalibState)
    (p : HestonParams) (h : calibInv m st) : calibInv m (calibStep hprice m st p) := by
  intro hf
  cases hst : st.found with
  | true =>
    rw [calibStep_of_found hprice m st p hst] at hf ⊢
    exact h hf
  | false =>
    rw [calibStep_not_found hprice m st p hst] at hf ⊢
    by_cases himp : |hprice p - m| < st.bestDiff
    · rw [if_pos himp] at hf ⊢
      by_cases hthr : |hprice p - m| < 5 / 1000 * m
      · simp [hthr] at hf
      · simpa using le_of_not_lt hthr
    · rw [if_neg himp] at hf ⊢
      simpa using h hst

lemma calibStep_hit (hprice : HestonParams → ℚ) (m : ℚ) (st : CalibState)
    (p : HestonParams) (hinv : calibInv m st)
    (hthr : |hprice p - m| < 5 / 1000 * m) :
    (calibStep hprice m st p).found = true := by
  cases hst : st.found with
  | true => rw [calibStep_of_found hprice m st p hst]; exact hst
  | false =>
    have hb : 5 / 1000 * m ≤ st.bestDiff := hinv hst
    rw [calibStep_not_found hprice m st p hst]
    have himp : |hprice p - m| < st.bestDiff := lt_of_lt_of_le hthr hb
    rw [if_pos himp]
    simp [hthr]

/-- If the `i`-th tuple of the remaining list prices within the
early-termination threshold, the fold performs at most `i + 1` further
evaluations. -/
lemma foldl_calibStep_hit_count (hprice : HestonParams → ℚ) (m : ℚ) :
    ∀ (l : List HestonParams) (st : CalibState) (i : ℕ), calibInv m st →
      i < l.length → |hprice (l.getD i hpDefault) - m| < 5 / 1000 * m →
      (l.foldl (calibStep hprice m) st).count ≤ st.count + i + 1 := by
  intro l
  induction l with
  | nil => intro st i _ h; simp at h
  | cons p t ih =>
    intro st i hinv hlen hthr
    cases i with
    | zero =>
      simp only [List.getD_cons_zero] at hthr
      have hfound : (calibStep hprice m st p).found = true :=
        calibStep_hit hprice m st p hinv hthr
      simp only [List.foldl_cons,
        foldl_calibStep_of_found hprice m t (calibStep hprice m st p) hfound]
      have := calibStep_count_le hprice m st p
      omega
    | succ j =>
      simp only [List.getD_cons_succ] at hthr
      simp only [List.length_cons] at hlen
      simp only [List.foldl_cons]
      have hinv' := calibStep_inv hprice m st p hinv
      have := ih (calibStep hprice m st p) j hinv' (by omega) hthr
      have := calibStep_count_le hprice m st p
      omega

/-- With a constant abstract pricer whose residual neither improves after the
first tuple nor crosses the early-termination threshold, the calibration
performs one update at the head tuple and then only counts: the final state
keeps the head tuple as best with residual `|c - m|` and evaluates every
tuple. -/
lemma foldl_calibStep_const (c m : ℚ) :
    ∀ (l : List HestonParams) (st : CalibState), st.found = false →
      st.bestDiff = |c - m| → ¬(|c - m| < 5 / 1000 * m) →
      l.foldl (calibStep (fun _ => c) m) st = { st with count := st.count + l.length } := by
  intro l
  induction l with
  | nil => intro st _ _ _; simp
  | cons p t ih =>
    intro st hf hb hthr
    have hstep : calibStep (fun _ => c) m st p = { st with count := st.count + 1 } := by
      rw [calibStep_not_found _ _ _ _ hf, hb, if_neg (lt_irrefl _)]
    simp only [List.foldl_cons, hstep]
    rw [ih _ (by simp [hf]) (by simp [hb]) hthr]
    simp only [List.length_cons]
    congr 1
    omega

/-- Structural shape of the grid: head tuple and tail length. -/
lemma gridTuples_head_tail (v k : ℚ) :
    gridTuples v k = ⟨v, k, v, 1 / 5, -(7 / 10)⟩ :: (gridTuples v k).tail := by
  simp [gridTuples]
  norm_num

lemma gridTuples_tail_length (v k : ℚ) : (gridTuples v k).tail.length = 134 := by
  simp [gridTuples]

lemma gridTuples_length (v k : ℚ) : (gridTuples v k).length = 135 := by
  simp [gridTuples]

/-- The calibration loop under a constant abstract pricer whose residual
does not reach the early-termination threshold: the head tuple wins on the
first evaluation, nothing improves afterwards, and all 135 tuples are
evaluated. -/
lemma calibrate_const (c m v k th : ℚ) (h1 : |c - m| < dblMax)
    (h2 : ¬(|c - m| < 5 / 1000 * m)) :
    calibrate (fun _ => c) m v k th =
      ⟨v, k, v, 1 / 5, -(7 / 10), |c - m|, false, 135⟩ := by
  have hstep : calibStep (fun _ => c) m (calibInit v k th) ⟨v, k, v, 1 / 5, -(7 / 10)⟩ =
      ⟨v, k, v, 1 / 5, -(7 / 10), |c - m|, false, 1⟩ := by
    rw [calibStep_not_found _ _ _ _ rfl]
    have hb : (calibInit v k th).bestDiff = dblMax := rfl
    rw [hb, if_pos h1]
    simp [calibInit, h2]
  rw [calibrate, gridTuples_head_tail, List.foldl_cons, hstep,
    foldl_calibStep_const c m _ _ rfl rfl h2, gridTuples_tail_length]

/-! ## Claim C5: calibration evaluation bound and early termination -/

/-- C5 (amended): the calibration loop evaluates the model price for at most
135 parameter tuples (the grid is 5 x 3 x 3 x 3), not 50 as claimed, and it
terminates early as soon as a tuple prices within `0.005 * m` of the market
price: if the `i`-th tuple of the grid does so, at most `i + 1` evaluations
are performed. -/
theorem claim5_calibration_bound (hprice : HestonParams → ℚ) (m v k th : ℚ) (i : ℕ)
    (hm : 5 / 1000 * m ≤ dblMax) (hlen : i < 135)
    (hhit : |hprice ((gridTuples v k).getD i hpDefault) - m| < 5 / 1000 * m) :
    (calibrate hprice m v k th).count ≤ i + 1 ∧ (calibrate hprice m v k th).count ≤ 135 := by
  have hinv : calibInv m (calibInit v k th) := fun _ => hm
  constructor
  · have h := foldl_calibStep_hit_count hprice m (gridTuples v k) (calibInit v k th) i hinv
      (by rw [gridTuples_length]; exact hlen) hhit
    simpa [calibrate, calibInit] using h
  · have h := foldl_calibStep_count hprice m (gridTuples v k) (calibInit v k th)
    rw [gridTuples_length] at h
    simpa [calibrate, calibInit] using h

/-- Witness for C5: with an abstract pricer that matches the market price
exactly, the very first tuple terminates the search: one evaluation. -/
theorem claim5_calibration_bound_witness :
    (calibrate (fun _ => 1) 1 (1 / 25) 1 (1 / 25)).count ≤ 0 + 1 ∧
      (calibrate (fun _ => 1) 1 (1 / 25) 1 (1 / 25)).count ≤ 135 :=
  claim5_calibration_bound (fun _ => 1) 1 (1 / 25) 1 (1 / 25) 0
    (by norm_num [dblMax]) (by norm_num) (by norm_num)

/-- Counterexample to C5 as stated: with an abstract pricer that never gets
within `0.005 * m` (constant price 1000 against market price 1), the loop
performs 135 pricing evaluations, which exceeds the claimed bound of 50. -/
theorem claim5_cex :
    (calibrate priceConstBig 1 (1 / 25) 1 (1 / 25)).count = 135 ∧
      ¬(calibrate priceConstBig 1 (1 / 25) 1 (1 / 25)).count ≤ 50 := by
  have he : priceConstBig = fun _ => (1000 : ℚ) := rfl
  have habs : |(1000 : ℚ) - 1| = 999 := by
    rw [show (1000 : ℚ) - 1 = 999 by norm_num]
    exact abs_of_pos (by norm_num)
  have h := calibrate_const 1000 1 (1 / 25) 1 (1 / 25)
    (by rw [habs]; norm_num [dblMax]) (by rw [habs]; norm_num)
  rw [he, h]
  norm_num

/-! ## Claim C4: the calibration grid and its enumeration order -/

set_option maxRecDepth 40000 in
/-- C4 (amended): the grid search enumerates exactly the Cartesian product
`v0 = init_v0 * [1, 0.85, 1.15, 0.7, 1.3]` (seed first, then nearer factors)
by `kappa = init_kappa * [1, 1.5, 0.5]` by the absolute vol-of-vol values
`sigma in [0.2, 0.4, 0.6]` by the absolute correlations
`rho in [-0.7, -0.4, 0.0]`, with `theta = v0` for each tuple, in exactly that
nesting order; in particular the first tuple tried is the seed tuple with
`sigma = 0.2`, `rho = -0.7`. -/
theorem claim4_grid_enumeration (v k : ℚ) :
    gridTuples v k =
      ((([v, v * (17 / 20), v * (23 / 20), v * (7 / 10), v * (13 / 10)] ×ˢ
            [k, k * (3 / 2), k * (1 / 2)]) ×ˢ [(1 : ℚ) / 5, 2 / 5, 3 / 5]) ×ˢ
          [-(7 : ℚ) / 10, -(2 / 5), 0]).map
        (fun x => ⟨x.1.1.1, x.1.1.2, x.1.1.1, x.1.2, x.2⟩) ∧
      (gridTuples v k).getD 0 hpDefault = ⟨v, k, v, 1 / 5, -(7 / 10)⟩ := by
  constructor
  · rfl
  · rw [gridTuples_head_tail]
    rfl

set_option maxRecDepth 40000 in
/-- Counterexample to C4 as stated: at the seeds of an at-the-money query
(`v0 = 0.04`, `kappa = 1`, spec Step 2 tier `sigma = 0.5`, `rho = -0.6`), the
enumerated grid differs from the grid claimed in the specification (the code
enumerates 135 tuples, the claimed product has 225; the factors and the order
differ as well). -/
theorem claim4_cex :
    gridTuples (1 / 25) 1 ≠ specGridStep3 (1 / 25) 1 (1 / 2) (-(3 / 5)) := by
  intro h
  have hl := congrArg List.length h
  rw [gridTuples_length] at hl
  have h225 : (specGridStep3 (1 / 25) 1 (1 / 2) (-(3 / 5))).length = 225 := by
    simp [specGridStep3]
  rw [h225] at hl
  exact absurd hl (by norm_num)

/-! ## Claim C1: the strike-grid cache key -/

/-- C1 (amended): the cache entry is reused, not rebuilt, whenever `S`, `r`,
`q`, `T`, `N`, `R`, `alpha` and `eta` match the cached key (the first four
and last three within the tolerance, `N` exactly); the Heston parameters
`(v0, kappa, theta, sigma, rho)` are not part of the hit test, so after a
build at parameters `p`, a second pricing `p2` that differs from `p` only in
the Heston parameters always hits the same cached price vector. -/
theorem claim1_cache_key (tol : ℚ) (cfg : FFTConfig) (p p2 : PricingInputs)
    (htol : 0 < tol) (hS : p2.S = p.S) (hr : p2.r = p.r) (hq : p2.q = p.q)
    (hT : p2.T = p.T) : cacheHit tol (cacheUpdateKey cfg p) cfg p2 := by
  refine ⟨rfl, ?_, ?_, ?_, ?_, rfl, ?_, ?_, ?_⟩ <;>
    simp [cacheUpdateKey, hS, hr, hq, hT, htol]

/-- Witness for C1: a concrete hit with the default configuration, default
tolerance `1e-5`, and two pricings that differ in all five Heston fields. -/
theorem claim1_cache_key_witness :
    cacheHit (1 / 100000)
      (cacheUpdateKey ⟨4096, 3, 3 / 2, 1 / 20⟩ ⟨100, 1 / 20, 0, 1, 1 / 25, 1, 1 / 25, 2 / 5, -(7 / 10)⟩)
      ⟨4096, 3, 3 / 2, 1 / 20⟩ ⟨100, 1 / 20, 0, 1, 2 / 25, 2, 2 / 25, 1 / 2, -(3 / 5)⟩ :=
  claim1_cache_key (1 / 100000) ⟨4096, 3, 3 / 2, 1 / 20⟩
    ⟨100, 1 / 20, 0, 1, 1 / 25, 1, 1 / 25, 2 / 5, -(7 / 10)⟩
    ⟨100, 1 / 20, 0, 1, 2 / 25, 2, 2 / 25, 1 / 2, -(3 / 5)⟩
    (by norm_num) rfl rfl rfl rfl

/-- Counterexample to C1 as stated: the cached key holds `v0 = 0.04`; a
query with `v0 = 0.08` differs by `0.04`, far beyond the tolerance `1e-5`,
yet the cache-hit test succeeds, so the cached price vector is reused across
different Heston parameters. -/
theorem claim1_cex :
    1 / 100000 < |(2 / 25 : ℚ) - 1 / 25| ∧
      cacheHit (1 / 100000)
        (cacheUpdateKey ⟨4096, 3, 3 / 2, 1 / 20⟩ ⟨100, 1 / 20, 0, 1, 1 / 25, 1, 1 / 25, 2 / 5, -(7 / 10)⟩)
        ⟨4096, 3, 3 / 2, 1 / 20⟩ ⟨100, 1 / 20, 0, 1, 2 / 25, 1, 1 / 25, 2 / 5, -(7 / 10)⟩ := by
  constructor
  · rw [show (2 / 25 : ℚ) - 1 / 25 = 1 / 25 by norm_num,
      abs_of_pos (by norm_num : (0 : ℚ) < 1 / 25)]
    norm_num
  · refine ⟨rfl, ?_, ?_, ?_, ?_, rfl, ?_, ?_, ?_⟩ <;> norm_num [cacheUpdateKey]

/-! ## Claim C7: adaptive FFT parameter selection -/

/-- C7 (amended): at the top of `heston_call_fft`, the FFT configuration is
adapted only when `is_challenging_parameter_set` holds (moneyness above 2 or
below 0.5, or expiry below 0.15 with `v0` above 0.04, or `sigma` above 1 or
`abs rho` above 0.9); when the adaptation does run, it applies exactly the
claimed thresholds: `N = 8192` and `R = 4` for moneyness above 1.5 or below
0.7, `eta = 0.025` and `alpha = 1.25` for `T` below 0.1, and `eta = 0.1` for
`T` above 2. -/
theorem claim7_adaptive_config (cfg : FFTConfig) (S K T v0 kappa theta sigma rho : ℚ) :
    hestonFFTConfig cfg S K T v0 kappa theta sigma rho =
      (if isChallenging S K T v0 kappa theta sigma rho then adaptFFT cfg S K T else cfg) ∧
    (adaptFFT cfg S K T).fftN = (if K / S > 3 / 2 ∨ K / S < 7 / 10 then 8192 else cfg.fftN) ∧
    (adaptFFT cfg S K T).range = (if K / S > 3 / 2 ∨ K / S < 7 / 10 then 4 else cfg.range) ∧
    (adaptFFT cfg S K T).alpha = (if T < 1 / 10 then 5 / 4 else cfg.alpha) ∧
    (adaptFFT cfg S K T).eta =
      (if T > 2 then 1 / 10 else if T < 1 / 10 then 1 / 40 else cfg.eta) := by
  refine ⟨rfl, ?_, ?_, ?_, ?_⟩ <;>
    (simp only [adaptFFT]; split_ifs <;> rfl)

/-- Counterexample to C7 as stated: the profile `S = 100`, `K = 160`,
`T = 0.5` has moneyness `1.6`, which crosses the `1.5` threshold of the
claim, but with the routine Heston tuple `(0.04, 1, 0.04, 0.4, -0.7)` the
parameter set is not classified as challenging, so `heston_call_fft` leaves
the configuration unchanged: `N` stays `4096` instead of being promoted to
`8192`. -/
theorem claim7_cex :
    (160 : ℚ) / 100 > 3 / 2 ∧
      hestonFFTConfig defaultConfig 100 160 (1 / 2) (1 / 25) 1 (1 / 25) (2 / 5) (-(7 / 10)) =
        defaultConfig ∧
      defaultConfig.fftN = 4096 := by
  refine ⟨by norm_num, ?_, rfl⟩
  have habs : |(-(7 / 10) : ℚ)| = 7 / 10 := by
    rw [abs_neg, abs_of_pos (by norm_num : (0 : ℚ) < 7 / 10)]
  have hch : isChallenging 100 160 (1 / 2) (1 / 25) 1 (1 / 25) (2 / 5) (-(7 / 10)) = false := by
    simp only [isChallenging]
    norm_num [habs]
  simp only [hestonFFTConfig, hch, Bool.false_eq_true, if_false]

/-! ## Evaluation lemmas for the concrete oracle `oracleA` -/

lemma oracleA_exp (x : ℚ) : oracleA.exp x = 1 := rfl

lemma oracleA_log (x : ℚ) : oracleA.log x = 0 := rfl

lemma oracleA_sqrt (x : ℚ) : oracleA.sqrt x = 1 := rfl

lemma oracleA_erf (x : ℚ) : oracleA.erf x = x := rfl

/-- Under `oracleA` at `S = K = 1`, `T = 1`, `r = q = 0`, the v5
Black-Scholes pricer evaluates to the strictly increasing curve
`sigma / 2`. -/
lemma bsc_oracleA (sigma : ℚ) (h : 0 < sigma) :
    black_scholes_call oracleA 1 1 1 0 0 sigma = sigma / 2 := by
  have hne : sigma ≠ 0 := ne_of_gt h
  simp only [black_scholes_call, oracleA_exp, oracleA_log, oracleA_sqrt, oracleA_erf]
  rw [if_neg (by push_neg; exact ⟨h, by norm_num, by norm_num, by norm_num⟩)]
  field_simp
  ring

lemma bisectLoop_succ (O : MathOracle) (m S K T r q : ℚ) (fuel : ℕ) (lo hi : ℚ) :
    bisectLoop O m S K T r q (fuel + 1) lo hi =
      if |black_scholes_call O S K T r q ((lo + hi) / 2) - m| < 1 / 1000000
      then (lo + hi) / 2
      else if black_scholes_call O S K T r q ((lo + hi) / 2) < m
        then bisectLoop O m S K T r q fuel ((lo + hi) / 2) hi
        else bisectLoop O m S K T r q fuel lo ((lo + hi) / 2) := rfl

/-- The concrete bisection run at market price `0.8750625`: the third
midpoint prices exactly at the market, so the loop returns `1.750125`. -/
lemma bisect_eval :
    bisectLoop oracleA (14001 / 16000) 1 1 1 0 0 99 (1 / 1000) 2 = 14001 / 8000 := by
  rw [show (99 : ℕ) = 98 + 1 from rfl, bisectLoop_succ,
    bsc_oracleA ((1 / 1000 + 2) / 2) (by norm_num)]
  rw [if_neg (by rw [abs_lt]; norm_num), if_pos (by norm_num)]
  rw [show (98 : ℕ) = 97 + 1 from rfl, bisectLoop_succ,
    bsc_oracleA (((1 / 1000 + 2) / 2 + 2) / 2) (by norm_num)]
  rw [if_neg (by rw [abs_lt]; norm_num), if_pos (by norm_num)]
  rw [show (97 : ℕ) = 96 + 1 from rfl, bisectLoop_succ,
    bsc_oracleA ((((1 / 1000 + 2) / 2 + 2) / 2 + 2) / 2) (by norm_num)]
  rw [if_pos (by rw [abs_lt]; norm_num)]
  norm_num

/-- The BS anchor at market price `0.8750625` under `oracleA`:
`1.750125`, a value strictly above the claimed upper bound `1.5`. -/
lemma bs_iv_val :
    bs_implied_vol oracleA (14001 / 16000) 1 1 1 0 0 = 14001 / 8000 := by
  simp only [bs_implied_vol, oracleA_exp]
  rw [if_neg (by norm_num), if_neg (by norm_num),
    if_neg (by rw [bsc_oracleA (1 / 1000) (by norm_num), bsc_oracleA 2 (by norm_num)]; norm_num),
    bisect_eval]

/-- The at-the-money seeding under `oracleA` at `S = K = T = 1`,
`r = q = 0`. -/
lemma svSeeds_atm (b : ℚ) : svSeeds oracleA b 1 1 1 0 0 = (b * b, 1, b * b) := by
  norm_num [svSeeds, oracleA_exp]

/-- The poor-calibration return path of `implied_vol_sv` (v5 lines 953-960):
when the anchor succeeded and the best residual exceeds `0.1 * m`, the BS
anchor is returned unchanged. -/
lemma implied_vol_sv_poor (O : MathOracle) (hprice : HestonParams → ℚ) (m S K T r q : ℚ)
    (hbs : ¬bs_implied_vol O m S K T r q < 0)
    (hdiff : (calibrate hprice m (svSeeds O (bs_implied_vol O m S K T r q) S K T r q).1
        (svSeeds O (bs_implied_vol O m S K T r q) S K T r q).2.1
        (svSeeds O (bs_implied_vol O m S K T r q) S K T r q).2.2).bestDiff > 1 / 10 * m) :
    implied_vol_sv O hprice m S K T r q = bs_implied_vol O m S K T r q := by
  simp only [implied_vol_sv]
  rw [if_neg hbs, if_pos hdiff]

/-! ## Claim C2: result bounds of `implied_vol_sv` -/

/-- C2 (amended): for every oracle, abstract pricer and input,
`implied_vol_sv` returns either the sentinel `-1` or a positive value in the
open interval `(0.001, 2)`; a positive value outside `[0.05, 1.5]` is
possible, and is always the BS anchor passed through by one of the fallback
branches (the calibrated value itself is range-checked against
`[0.05, 1.5]` before being returned). -/
theorem claim2_result_range (O : MathOracle) (hprice : HestonParams → ℚ) (m S K T r q : ℚ) :
    implied_vol_sv O hprice m S K T r q = -1 ∨
      (1 / 1000 < implied_vol_sv O hprice m S K T r q ∧
        implied_vol_sv O hprice m S K T r q < 2) := by
  simp only [implied_vol_sv]
  rcases bs_implied_vol_range O m S K T r q with h | h
  · rw [h, if_pos (by norm_num)]
    exact Or.inl rfl
  · rw [if_neg (by linarith [h.1])]
    split_ifs with h1 h2 h3
    · exact Or.inr h
    · exact Or.inr h
    · exact Or.inr h
    · push_neg at h2 h3
      exact Or.inr ⟨by linarith, by linarith⟩

/-- Counterexample to C2 as stated: at market price `0.8750625` with
`S = K = T = 1`, `r = q = 0`, under the monotone-price oracle `oracleA` and
an abstract pricer that calibrates poorly (constant price 1000),
`implied_vol_sv` returns the BS anchor `1.750125`: a positive value strictly
greater than `1.5`, outside the claimed interval `[0.05, 1.5]`. -/
theorem claim2_cex :
    implied_vol_sv oracleA priceConstBig (14001 / 16000) 1 1 1 0 0 = 14001 / 8000 ∧
      3 / 2 < (14001 : ℚ) / 8000 := by
  have hpc : priceConstBig = fun _ => (1000 : ℚ) := rfl
  have habs : |(1000 : ℚ) - 14001 / 16000| = 1000 - 14001 / 16000 :=
    abs_of_pos (by norm_num)
  have hcal := calibrate_const 1000 (14001 / 16000)
    (14001 / 8000 * (14001 / 8000)) 1 (14001 / 8000 * (14001 / 8000))
    (by rw [habs]; norm_num [dblMax]) (by rw [habs]; norm_num)
  have hres : implied_vol_sv oracleA priceConstBig (14001 / 16000) 1 1 1 0 0 =
      bs_implied_vol oracleA (14001 / 16000) 1 1 1 0 0 := by
    apply implied_vol_sv_poor
    · rw [bs_iv_val]; norm_num
    · simp only [bs_iv_val, svSeeds_atm, hpc, hcal]
      rw [habs]
      norm_num
  exact ⟨by rw [hres, bs_iv_val], by norm_num⟩

/-! ## Claim C3: the poor-calibration return path -/

/-- C3 (amended): in the v5 post-processing, whenever the BS anchor
succeeded and the best residual exceeds `0.1 * m`, `implied_vol_sv` returns
the BS anchor `sigma_bs` directly; no blend of `sigma_sv` with `sigma_bs` is
formed and no skew adjustment is applied (the blend-and-adjust step described
by the claim exists only in the legacy v4 variant). -/
theorem claim3_poor_calibration (O : MathOracle) (hprice : HestonParams → ℚ)
    (m S K T r q : ℚ) (hbs : ¬bs_implied_vol O m S K T r q < 0)
    (hdiff : (calibrate hprice m (svSeeds O (bs_implied_vol O m S K T r q) S K T r q).1
        (svSeeds O (bs_implied_vol O m S K T r q) S K T r q).2.1
        (svSeeds O (bs_implied_vol O m S K T r q) S K T r q).2.2).bestDiff > 1 / 10 * m) :
    implied_vol_sv O hprice m S K T r q = bs_implied_vol O m S K T r q :=
  implied_vol_sv_poor O hprice m S K T r q hbs hdiff

/-- Witness for C3: a concrete poorly-calibrating run (constant model price
`1.35` against market price `0.8750625`) that returns the BS anchor. -/
theorem claim3_poor_calibration_witness :
    implied_vol_sv oracleA priceConstMid (14001 / 16000) 1 1 1 0 0 =
      bs_implied_vol oracleA (14001 / 16000) 1 1 1 0 0 := by
  have hpc : priceConstMid = fun _ => (27 / 20 : ℚ) := rfl
  have habs : |(27 / 20 : ℚ) - 14001 / 16000| = 27 / 20 - 14001 / 16000 :=
    abs_of_pos (by norm_num)
  have hcal := calibrate_const (27 / 20) (14001 / 16000)
    (14001 / 8000 * (14001 / 8000)) 1 (14001 / 8000 * (14001 / 8000))
    (by rw [habs]; norm_num [dblMax]) (by rw [habs]; norm_num)
  apply claim3_poor_calibration
  · rw [bs_iv_val]; norm_num
  · simp only [bs_iv_val, svSeeds_atm, hpc, hcal]
    rw [habs]
    norm_num

/-- Counterexample to C3 as stated: in the same poorly-calibrating run, the
best residual is `0.4749375`, which exceeds `0.1` of the market price, the
code returns the anchor `1.750125`, and the blend the claim prescribes
(weight `w = 1 - min(1, residual/m)`, spec Step 4 value for `sigma_sv`, half
the skew adjustment added) evaluates to a different number, so the returned
value is not the claimed blend. -/
theorem claim3_cex :
    (calibrate priceConstMid (14001 / 16000)
        (14001 / 8000 * (14001 / 8000)) 1 (14001 / 8000 * (14001 / 8000))).bestDiff =
      7599 / 16000 ∧
    (7599 : ℚ) / 16000 > 1 / 10 * (14001 / 16000) ∧
    implied_vol_sv oracleA priceConstMid (14001 / 16000) 1 1 1 0 0 = 14001 / 8000 ∧
    specBlend (14001 / 16000) (7599 / 16000)
        (specStep4Vol (oracleA.sqrt (14001 / 8000 * (14001 / 8000))) (specSkewAdjust 1 1))
        (14001 / 8000) (specSkewAdjust 1 1) ≠ 14001 / 8000 := by
  have hpc : priceConstMid = fun _ => (27 / 20 : ℚ) := rfl
  have habs : |(27 / 20 : ℚ) - 14001 / 16000| = 27 / 20 - 14001 / 16000 :=
    abs_of_pos (by norm_num)
  have hcal := calibrate_const (27 / 20) (14001 / 16000)
    (14001 / 8000 * (14001 / 8000)) 1 (14001 / 8000 * (14001 / 8000))
    (by rw [habs]; norm_num [dblMax]) (by rw [habs]; norm_num)
  have hadj : specSkewAdjust 1 1 = 0 := by norm_num [specSkewAdjust]
  have hsv : specStep4Vol (oracleA.sqrt (14001 / 8000 * (14001 / 8000))) 0 = 1 := by
    rw [oracleA_sqrt]
    norm_num [specStep4Vol]
  refine ⟨?_, by norm_num, ?_, ?_⟩
  · rw [hpc, hcal, habs]
    norm_num
  · have hres : implied_vol_sv oracleA priceConstMid (14001 / 16000) 1 1 1 0 0 =
        bs_implied_vol oracleA (14001 / 16000) 1 1 1 0 0 := by
      apply implied_vol_sv_poor
      · rw [bs_iv_val]; norm_num
      · simp only [bs_iv_val, svSeeds_atm, hpc, hcal]
        rw [habs]
        norm_num
    rw [hres, bs_iv_val]
  · rw [hadj, hsv, specBlend,
      min_eq_right (by norm_num : ((7599 : ℚ) / 16000) / (14001 / 16000) ≤ 1)]
    norm_num

/-! ## Claim C6: the NoBracket condition of `bs_implied_vol` -/

/-- C6 (amended): for positive `m`, `S`, `K`, `T` with `m` at or above the
intrinsic value, `bs_implied_vol` fails with the sentinel exactly when the
market price is at or outside the bracket prices: `m <= C(0.001)` or
`C(2) <= m` (boundary inclusive; the strict reading of the claim, outside
`[C(lo), C(hi)]`, misses the boundary cases); otherwise it returns a
bisection midpoint and does not fail. -/
theorem claim6_no_bracket (O : MathOracle) (m S K T r q : ℚ)
    (hm : 0 < m) (hS : 0 < S) (hK : 0 < K) (hT : 0 < T)
    (hi : max 0 (S * O.exp (-q * T) - K * O.exp (-r * T)) ≤ m) :
    (bs_implied_vol O m S K T r q = -1 ↔
      (m ≤ black_scholes_call O S K T r q (1 / 1000) ∨
        black_scholes_call O S K T r q 2 ≤ m)) := by
  simp only [bs_implied_vol]
  rw [if_neg (by push_neg; exact ⟨hm, hS, hK, hT⟩), if_neg (not_lt.mpr hi)]
  by_cases hb : m ≤ black_scholes_call O S K T r q (1 / 1000) ∨
      black_scholes_call O S K T r q 2 ≤ m
  · rw [if_pos hb]
    simpa using hb
  · rw [if_neg hb]
    constructor
    · intro h
      have hmem := (bisectLoop_mem O m S K T r q 99 (1 / 1000) 2 le_rfl le_rfl (by norm_num)).1
      rw [h] at hmem
      linarith
    · intro h
      exact absurd h hb
/-- Witness for C6: a bracketed query (market price `0.5` strictly between
the bracket prices `0.0005` and `1` under `oracleA`). -/
theorem claim6_no_bracket_witness :
    (bs_implied_vol oracleA (1 / 2) 1 1 1 0 0 = -1 ↔
      ((1 : ℚ) / 2 ≤ black_scholes_call oracleA 1 1 1 0 0 (1 / 1000) ∨
        black_scholes_call oracleA 1 1 1 0 0 2 ≤ (1 : ℚ) / 2)) :=
  claim6_no_bracket oracleA (1 / 2) 1 1 1 0 0 (by norm_num) (by norm_num) (by norm_num)
    (by norm_num) (by norm_num [oracleA_exp])

/-- Counterexample to C6 as stated: at `m = C(0.001) = 0.0005` the market
price lies inside the closed interval `[C(0.001), C(2)] = [0.0005, 1]` and
is at or above the intrinsic value `0`, yet the solver returns the sentinel
(the code tests `m <= price_low`, not `m < price_low`). -/
theorem claim6_cex :
    black_scholes_call oracleA 1 1 1 0 0 (1 / 1000) = 1 / 2000 ∧
    black_scholes_call oracleA 1 1 1 0 0 (1 / 1000) ≤ (1 / 2000 : ℚ) ∧
    (1 / 2000 : ℚ) ≤ black_scholes_call oracleA 1 1 1 0 0 2 ∧
    max 0 (1 * oracleA.exp (-0 * 1) - 1 * oracleA.exp (-0 * 1)) ≤ (1 / 2000 : ℚ) ∧
    bs_implied_vol oracleA (1 / 2000) 1 1 1 0 0 = -1 := by
  have h1 : black_scholes_call oracleA 1 1 1 0 0 (1 / 1000) = 1 / 2000 := by
    rw [bsc_oracleA (1 / 1000) (by norm_num)]
    norm_num
  have h2 : black_scholes_call oracleA 1 1 1 0 0 2 = 1 := by
    rw [bsc_oracleA 2 (by norm_num)]
    norm_num
  refine ⟨h1, le_of_eq h1, by rw [h2]; norm_num, by norm_num [oracleA_exp], ?_⟩
  simp only [bs_implied_vol, oracleA_exp]
  rw [if_neg (by norm_num), if_neg (by norm_num),
    if_pos (Or.inl (le_of_eq h1.symm))]

/-! ## Claim C8: the near-zero-volatility branches of `bs_call` -/

/-- C8 (amended): for positive `S`, `K`, `T`, `sigma` with
`sigma * sqrt(T)` below `DBL_EPSILON`, `bs_call` of `calculate_iv_v2.c`
returns `max(0, S - K * exp(-r T))`, with the spot NOT discounted by the
dividend yield, except when `sigma < 0.0001`, in which case the earlier
forward branch returns `max(0, S * exp(-q T) - K * exp(-r T))` (the
dividend-discounted intrinsic the claim describes). -/
theorem claim8_intrinsic_branch (O : MathOracle) (S K T r q sigma : ℚ)
    (hS : 0 < S) (hK : 0 < K) (hT : 0 < T) (hsig : 0 < sigma)
    (heps : sigma * O.sqrt T < dblEps) :
    bs_call O S K T r q sigma =
      if sigma < 1 / 10000 then max 0 (S * O.exp (-q * T) - K * O.exp (-r * T))
      else max 0 (S - K * O.exp (-r * T)) := by
  simp only [bs_call]
  rw [if_neg (by push_neg; exact ⟨hsig, hT, hS, hK⟩)]
  by_cases hsmall : sigma < 1 / 10000
  · rw [if_pos hsmall, if_pos hsmall]
    by_cases hgt : S * O.exp (-q * T) > K * O.exp (-r * T)
    · rw [if_pos hgt, max_eq_right (by linarith)]
    · rw [if_neg hgt, max_eq_left (by linarith [not_lt.mp hgt])]
  · rw [if_neg hsmall, if_neg hsmall]
    by_cases hsq : O.sqrt T < dblEps
    · rw [if_pos hsq]
    · rw [if_neg hsq, if_pos heps]

/-- Witness for C8: `sigma = 1/8000` (at least `0.0001`, so the near-zero
branch is skipped) with `sqrt(T) = 2 ^ (-40)` puts `sigma * sqrt(T)` below
`DBL_EPSILON`; the pricer returns the undiscounted-spot intrinsic. -/
theorem claim8_intrinsic_branch_witness :
    bs_call oracleB 10 3 1 0 1 (1 / 8000) =
      if (1 / 8000 : ℚ) < 1 / 10000 then
        max 0 (10 * oracleB.exp (-1 * 1) - 3 * oracleB.exp (-0 * 1))
      else max 0 (10 - 3 * oracleB.exp (-0 * 1)) :=
  claim8_intrinsic_branch oracleB 10 3 1 0 1 (1 / 8000) (by norm_num) (by norm_num)
    (by norm_num) (by norm_num) (by norm_num [oracleB, dblEps])

/-- Counterexample to C8 as stated: with `S = 10`, `K = 3`, `q` and `T` such
that `exp(-q T) = 1/2` and `exp(-r T) = 1`, and `sigma * sqrt(T)` below
machine epsilon with `sigma = 1/8000 >= 0.0001`, the code returns
`max(0, S - K exp(-r T)) = 7`, while the claimed dividend-discounted
intrinsic `max(0, S exp(-q T) - K exp(-r T))` is `2`. -/
theorem claim8_cex :
    (1 / 8000 : ℚ) * oracleB.sqrt 1 < dblEps ∧
    bs_call oracleB 10 3 1 0 1 (1 / 8000) = 7 ∧
    max 0 (10 * oracleB.exp (-1 * 1) - 3 * oracleB.exp (-0 * 1)) = 2 ∧
    (7 : ℚ) ≠ 2 := by
  have he0 : oracleB.exp (-0 * 1) = 1 := by norm_num [oracleB]
  have he1 : oracleB.exp (-1 * 1) = 1 / 2 := by norm_num [oracleB]
  refine ⟨by norm_num [oracleB, dblEps], ?_, ?_, by norm_num⟩
  · simp only [bs_call]
    rw [if_neg (by norm_num), if_neg (by norm_num),
      if_neg (by norm_num [oracleB, dblEps]), if_pos (by norm_num [oracleB, dblEps]),
      he0]
    rw [max_eq_right (by norm_num : (0 : ℚ) ≤ 10 - 3 * 1)]
    norm_num
  · rw [he0, he1]
    rw [max_eq_right (by norm_num : (0 : ℚ) ≤ 10 * (1 / 2) - 3 * 1)]
    norm_num

/-! ## Claims C9 and C10: strike grid, binary search, interpolation -/

/-- Bracketing invariant of the cache binary search: starting from a
bracketing pair with enough fuel, the search returns an adjacent bracketing
pair inside the original range. -/
lemma bsearchIdx_bracket (s : ℕ → ℚ) (K : ℚ) :
    ∀ (fuel lo hi : ℕ), lo < hi → hi - lo ≤ fuel + 1 → s lo < K → K ≤ s hi →
      (bsearchIdx s K fuel lo hi).2 = (bsearchIdx s K fuel lo hi).1 + 1 ∧
      lo ≤ (bsearchIdx s K fuel lo hi).1 ∧ (bsearchIdx s K fuel lo hi).2 ≤ hi ∧
      s (bsearchIdx s K fuel lo hi).1 < K ∧ K ≤ s (bsearchIdx s K fuel lo hi).2 := by
  intro fuel
  induction fuel with
  | zero =>
    intro lo hi hlt hgap hlo hhi
    simp only [bsearchIdx]
    exact ⟨by omega, le_rfl, le_rfl, hlo, hhi⟩
  | succ n ih =>
    intro lo hi hlt hgap hlo hhi
    simp only [bsearchIdx]
    by_cases hle : hi - lo ≤ 1
    · rw [if_pos hle]
      exact ⟨by omega, le_rfl, le_rfl, hlo, hhi⟩
    · rw [if_neg hle]
      have hmid1 : lo < (lo + hi) / 2 := by omega
      have hmid2 : (lo + hi) / 2 < hi := by omega
      by_cases hs : s ((lo + hi) / 2) < K
      · rw [if_pos hs]
        have h := ih ((lo + hi) / 2) hi hmid2 (by omega) hs hhi
        exact ⟨h.1, le_trans (le_of_lt hmid1) h.2.1, h.2.2⟩
      · rw [if_neg hs]
        have h := ih lo ((lo + hi) / 2) hmid1 (by omega) hlo (le_of_not_lt hs)
        exact ⟨h.1, h.2.1, le_trans h.2.2.1 (le_of_lt hmid2), h.2.2.2⟩

/-- With a strictly increasing `exp` oracle and a positive log-strike range,
the built strike grid is strictly increasing. -/
lemma cacheStrikes_strictMono (O : MathOracle) (S R : ℚ) (n : ℕ)
    (hmono : StrictMono O.exp) (hR : 0 < R) (hn : 2 ≤ n) :
    ∀ i j : ℕ, i < j → cacheStrikes O S R n i < cacheStrikes O S R n j := by
  intro i j hij
  apply hmono
  have hnpos : (0 : ℚ) < (n : ℚ) := by
    have : (2 : ℚ) ≤ (n : ℚ) := by exact_mod_cast hn
    linarith
  have hd : 0 < 2 * R / (n : ℚ) := by positivity
  have hij2 : (i : ℚ) < (j : ℚ) := by exact_mod_cast hij
  have := mul_lt_mul_of_pos_left hij2 hd
  linarith

/-- C9 (confirmed): the strikes written by a successful cache build are
`exp(log S - R + (2R/N) i)`; with `R > 0`, `N >= 2` and the strictly
increasing real `exp` (hypothesis `hmono` on the oracle) the strike array is
strictly increasing, and for every query `K` strictly inside the grid range
the binary search of `get_cached_option_price` terminates with an adjacent
bracketing pair: indices `(lo, lo + 1)` within range with
`strikes[lo] < K <= strikes[lo + 1]`. -/
theorem claim9_strike_grid (O : MathOracle) (S R : ℚ) (n : ℕ) (K : ℚ)
    (hmono : StrictMono O.exp) (hR : 0 < R) (hn : 2 ≤ n)
    (hlo : cacheStrikes O S R n 0 < K) (hhi : K < cacheStrikes O S R n (n - 1)) :
    (∀ i, cacheStrikes O S R n i = O.exp (O.log S - R + 2 * R / (n : ℚ) * (i : ℚ))) ∧
    (∀ i j : ℕ, i < j → cacheStrikes O S R n i < cacheStrikes O S R n j) ∧
    (bsearchIdx (cacheStrikes O S R n) K n 0 (n - 1)).2 =
      (bsearchIdx (cacheStrikes O S R n) K n 0 (n - 1)).1 + 1 ∧
    (bsearchIdx (cacheStrikes O S R n) K n 0 (n - 1)).2 ≤ n - 1 ∧
    cacheStrikes O S R n (bsearchIdx (cacheStrikes O S R n) K n 0 (n - 1)).1 < K ∧
    K ≤ cacheStrikes O S R n (bsearchIdx (cacheStrikes O S R n) K n 0 (n - 1)).2 := by
  have hb := bsearchIdx_bracket (cacheStrikes O S R n) K n 0 (n - 1)
    (by omega) (by omega) hlo (le_of_lt hhi)
  exact ⟨fun i => rfl, cacheStrikes_strictMono O S R n hmono hR hn,
    hb.1, hb.2.2.1, hb.2.2.2⟩

/-- Witness for C9: the grid `S = 10`, `R = 1`, `N = 4` under the identity
oracle has strikes `9, 9.5, 10, 10.5`; the search for `K = 9.7` returns an
adjacent bracketing pair. -/
theorem claim9_strike_grid_witness :
    cacheStrikes oracleId 10 1 4
        (bsearchIdx (cacheStrikes oracleId 10 1 4) (97 / 10) 4 0 (4 - 1)).1 < 97 / 10 ∧
      (97 / 10 : ℚ) ≤ cacheStrikes oracleId 10 1 4
        (bsearchIdx (cacheStrikes oracleId 10 1 4) (97 / 10) 4 0 (4 - 1)).2 :=
  (claim9_strike_grid oracleId 10 1 4 (97 / 10) (fun _ _ h => h) (by norm_num)
    (by norm_num) (by norm_num [cacheStrikes, oracleId])
    (by norm_num [cacheStrikes, oracleId])).2.2.2.2

/-- C10 (confirmed): every price stored by a successful cache build is of
the form `max(0, fixed_dft * exp_factor / pi)`, hence finite (`some`) and
non-negative; a non-finite transform output is mapped to price `0`; and on
the cache such a build produces, `get_cached_option_price` always returns a
finite value that is either the sentinel `-1` or non-negative - in fact on a
built cache the returned value is always non-negative, since the boundary
branches return stored prices and the interior branch interpolates linearly
between two adjacent non-negative stored prices with a weight in `[0, 1]`. -/
theorem claim10_cache_nonneg (O : MathOracle) (dft : ℕ → Option ℚ) (S R alpha : ℚ)
    (n : ℕ) (hmono : StrictMono O.exp) (hR : 0 < R) (hn : 2 ≤ n) :
    (∀ i, (builtCache O dft S R alpha n).prices i =
        some (cachePriceAt O dft S R alpha n i) ∧ 0 ≤ cachePriceAt O dft S R alpha n i) ∧
    (∀ i, dft i = none → (builtCache O dft S R alpha n).prices i = some 0) ∧
    (∀ K, (getCachedPrice (builtCache O dft S R alpha n) K).isSome = true ∧
      0 ≤ (getCachedPrice (builtCache O dft S R alpha n) K).getD 0) := by
  refine ⟨fun i => ⟨rfl, le_max_left 0 _⟩, fun i hi => ?_, fun K => ?_⟩
  · simp [builtCache, cachePriceAt, hi]
  · simp only [getCachedPrice, builtCache]
    rw [if_neg (by simp)]
    by_cases h0 : K ≤ cacheStrikes O S R n 0
    · rw [if_pos h0]
      exact ⟨rfl, le_max_left 0 _⟩
    · rw [if_neg h0]
      by_cases h1 : cacheStrikes O S R n (n - 1) ≤ K
      · rw [if_pos h1]
        exact ⟨rfl, le_max_left 0 _⟩
      · rw [if_neg h1]
        push_neg at h0 h1
        have hb := bsearchIdx_bracket (cacheStrikes O S R n) K n 0 (n - 1)
          (by omega) (by omega) h0 (le_of_lt h1)
        constructor
        · rfl
        · have hadj : (bsearchIdx (cacheStrikes O S R n) K n 0 (n - 1)).1 <
              (bsearchIdx (cacheStrikes O S R n) K n 0 (n - 1)).2 := by omega
          have hss : cacheStrikes O S R n (bsearchIdx (cacheStrikes O S R n) K n 0 (n - 1)).1 <
              cacheStrikes O S R n (bsearchIdx (cacheStrikes O S R n) K n 0 (n - 1)).2 :=
            cacheStrikes_strictMono O S R n hmono hR hn _ _ hadj
          simp only [Option.getD_some]
          set a := cacheStrikes O S R n (bsearchIdx (cacheStrikes O S R n) K n 0 (n - 1)).1
            with ha
          set b := cacheStrikes O S R n (bsearchIdx (cacheStrikes O S R n) K n 0 (n - 1)).2
            with hbdef
          set pl := cachePriceAt O dft S R alpha n
            (bsearchIdx (cacheStrikes O S R n) K n 0 (n - 1)).1 with hpl
          set ph := cachePriceAt O dft S R alpha n
            (bsearchIdx (cacheStrikes O S R n) K n 0 (n - 1)).2 with hph
          have hplnn : 0 ≤ pl := le_max_left 0 _
          have hphnn : 0 ≤ ph := le_max_left 0 _
          have hKa : a < K := hb.2.2.2.1
          have hKb : K ≤ b := hb.2.2.2.2
          have hdenom : 0 < b - a := by linarith
          have hw0 : 0 ≤ (K - a) / (b - a) := div_nonneg (by linarith) (le_of_lt hdenom)
          have hw1 : (K - a) / (b - a) ≤ 1 := by
            rw [div_le_one hdenom]
            linarith
          have hval : pl + (K - a) / (b - a) * (ph - pl) =
              (1 - (K - a) / (b - a)) * pl + (K - a) / (b - a) * ph := by ring
          rw [hval]
          exact add_nonneg (mul_nonneg (by linarith) hplnn) (mul_nonneg hw0 hphnn)

/-- Witness for C10: on the concrete built cache (all transform outputs
non-finite, hence all prices `0`), the lookup at `K = 9.7` returns a finite
non-negative value. -/
theorem claim10_cache_nonneg_witness :
    (getCachedPrice (builtCache oracleId dftNone 10 1 1 4) (97 / 10)).isSome = true ∧
      0 ≤ (getCachedPrice (builtCache oracleId dftNone 10 1 1 4) (97 / 10)).getD 0 :=
  (claim10_cache_nonneg oracleId dftNone 10 1 1 4 (fun _ _ h => h) (by norm_num)
    (by norm_num)).2.2 (97 / 10)
